import Mathlib

/-!
Verification development for the Nanako educational language (JavaScript
implementation, canonical v0.3.1 half of src/html/nanako.js).

The evaluator classes (suffixed Node), the NanakoArray container, the
NanakoRuntime and the two control-flow exception classes are embedded
shallowly below.  JavaScript mutable objects (NanakoArray instances) are
modelled by an explicit store of cells addressed by Nat; the environment
object is an association list threaded through evaluation; the runtime is a
record of counters, the call-frame stack and the cancellation flags.
Host-level JavaScript behaviours that the code relies on (Array.isArray on
a NanakoArray, NaN arithmetic on non-numeric loop counts, strict equality
being reference identity, a ReferenceError raised by an out-of-scope
template variable) are modelled explicitly where they are reachable and
noted in comments.
-/

namespace Nanako

/- AST of the canonical implementation.  Statement nodes that hold a
VariableNode (assignment, increment, decrement, append) carry the variable
name and its index-expression chain directly; an empty chain corresponds to
JavaScript indices === null. -/
mutual

inductive Expr : Type
  | nullNode : Expr
  | numberNode (value : Int) : Expr
  | lenNode (element : Expr) : Expr
  | minusNode (element : Expr) : Expr
  | arrayNode (elements : List Expr) : Expr
  | functionNode (name : String) (parameters : List String) (body : List Stmt) : Expr
  | funcCallNode (name : String) (args : List Expr) : Expr
  | variableNode (name : String) (indices : List Expr) : Expr

inductive Stmt : Type
  | assignmentNode (name : String) (indices : List Expr) (expression : Expr) : Stmt
  | incrementNode (name : String) (indices : List Expr) : Stmt
  | decrementNode (name : String) (indices : List Expr) : Stmt
  | appendNode (name : String) (indices : List Expr) (expression : Expr) : Stmt
  | ifNode (left : Expr) (operator : String) (right : Expr)
      (thenBlock : List Stmt) (elseBlock : Option (List Stmt)) : Stmt
  | loopNode (count : Expr) (body : List Stmt) : Stmt
  | breakNode : Stmt
  | returnNode (expression : Expr) : Stmt
  | expressionStatementNode (expression : Expr) : Stmt
  | testNode (expression : Expr) (answer : Expr) : Stmt

end

/- Structural Boolean equality on the AST (used below to represent
JavaScript object identity on FunctionNode values). -/
mutual

def exprBeq : Expr → Expr → Bool
  | .nullNode, .nullNode => true
  | .numberNode a, .numberNode b => a = b
  | .lenNode a, .lenNode b => exprBeq a b
  | .minusNode a, .minusNode b => exprBeq a b
  | .arrayNode xs, .arrayNode ys => exprListBeq xs ys
  | .functionNode n1 p1 b1, .functionNode n2 p2 b2 =>
      n1 = n2 && decide (p1 = p2) && stmtListBeq b1 b2
  | .funcCallNode n1 a1, .funcCallNode n2 a2 => n1 = n2 && exprListBeq a1 a2
  | .variableNode n1 i1, .variableNode n2 i2 => n1 = n2 && exprListBeq i1 i2
  | _, _ => false

def exprListBeq : List Expr → List Expr → Bool
  | [], [] => true
  | x :: xs, y :: ys => exprBeq x y && exprListBeq xs ys
  | _, _ => false

def stmtBeq : Stmt → Stmt → Bool
  | .assignmentNode n1 i1 e1, .assignmentNode n2 i2 e2 =>
      n1 = n2 && exprListBeq i1 i2 && exprBeq e1 e2
  | .incrementNode n1 i1, .incrementNode n2 i2 => n1 = n2 && exprListBeq i1 i2
  | .decrementNode n1 i1, .decrementNode n2 i2 => n1 = n2 && exprListBeq i1 i2
  | .appendNode n1 i1 e1, .appendNode n2 i2 e2 =>
      n1 = n2 && exprListBeq i1 i2 && exprBeq e1 e2
  | .ifNode l1 o1 r1 t1 e1, .ifNode l2 o2 r2 t2 e2 =>
      exprBeq l1 l2 && o1 = o2 && exprBeq r1 r2 && stmtListBeq t1 t2 &&
        stmtListOptBeq e1 e2
  | .loopNode c1 b1, .loopNode c2 b2 => exprBeq c1 c2 && stmtListBeq b1 b2
  | .breakNode, .breakNode => true
  | .returnNode e1, .returnNode e2 => exprBeq e1 e2
  | .expressionStatementNode e1, .expressionStatementNode e2 => exprBeq e1 e2
  | .testNode e1 a1, .testNode e2 a2 => exprBeq e1 e2 && exprBeq a1 a2
  | _, _ => false

def stmtListBeq : List Stmt → List Stmt → Bool
  | [], [] => true
  | x :: xs, y :: ys => stmtBeq x y && stmtListBeq xs ys
  | _, _ => false

def stmtListOptBeq : Option (List Stmt) → Option (List Stmt) → Bool
  | none, none => true
  | some xs, some ys => stmtListBeq xs ys
  | _, _ => false

end

/-- Runtime values.  A NanakoArray instance is a mutable object, modelled as
an address into the store; a FunctionNode evaluates to itself, so a function
value carries the node's name, parameter list and body. -/
inductive Value : Type
  | num (n : Int)
  | null
  | arr (addr : Nat)
  | func (name : String) (parameters : List String) (body : List Stmt)

/-- The heap cell behind one NanakoArray object: its elements array and its
isStringView flag (fixed at construction). -/
structure Cell where
  elements : List Value
  isStringView : Bool

/-- The store of allocated NanakoArray objects; an address is an index. -/
abbrev Store := List Cell

/-- Reading a cell; addresses produced by allocation are always in range. -/
def getCell (s : Store) (a : Nat) : Cell := s.getD a ⟨[], false⟩

/-- Allocating a fresh NanakoArray object. -/
def allocCell (s : Store) (c : Cell) : Store × Nat := (s ++ [c], s.length)

/-- array.elements[idx] = value on the cell at address a. -/
def setElem (s : Store) (a : Nat) (i : Nat) (v : Value) : Store :=
  s.set a { getCell s a with elements := (getCell s a).elements.set i v }

/-- array.elements.push(value) on the cell at address a. -/
def pushElem (s : Store) (a : Nat) (v : Value) : Store :=
  s.set a { getCell s a with elements := (getCell s a).elements ++ [v] }

/-- The environment object: identifier-to-value bindings in insertion
order.  A JavaScript plain object keyed by strings. -/
abbrev Env := List (String × Value)

/-- this.name in env. -/
def envLookup (env : Env) (k : String) : Option Value :=
  match env with
  | [] => none
  | (k', v) :: rest => if k' = k then some v else envLookup rest k

/-- env[name] = value: overwrite in place, or append a new binding. -/
def envInsert (env : Env) (k : String) (v : Value) : Env :=
  match env with
  | [] => [(k, v)]
  | (k', v') :: rest =>
    if k' = k then (k', v) :: rest else (k', v') :: envInsert rest k v

/-- One entry of runtime.callFrames (the source position is diagnostic
only and is not modelled). -/
structure Frame where
  funcName : String
  args : List Value

/-- NanakoRuntime state.  timedOut abstracts the Date.now() - startTime
greater-than-timeout test of checkExecution as an externally controlled
flag; output collects the values routed through runtime.print. -/
structure Rt where
  incrementCount : Nat := 0
  decrementCount : Nat := 0
  compareCount : Nat := 0
  callFrames : List Frame := []
  shouldStop : Bool := false
  timedOut : Bool := false
  output : List Value := []

/-- The full mutable state threaded through evaluation: the current scope's
environment object, the store of NanakoArray objects, and the runtime. -/
structure St where
  env : Env
  store : Store
  rt : Rt

/-- Errors raised by the evaluator, one constructor per distinct throw site
(NanakoError messages are identified by their meaning, not their text).
hostRefError models the ReferenceError raised by VariableNode.evaluateWith's
final throw, whose message template reads the block-scoped indexValue after
the loop; hostTypeError models the TypeError raised when a call target is
not a FunctionNode (reading .parameters of undefined). -/
inductive Err : Type
  | unknownVariable (name : String)
  | notArray
  | indexRange
  | notNumber
  | funcNotFound (name : String)
  | arityMismatch
  | negativeLoopCount (n : Int)
  | arrayLoopCount
  | testFailed (actual : Value)
  | stopped
  | timeout
  | hostRefError
  | hostTypeError

/-- Result of evaluating an expression.  ok is a produced value; brk is a
propagating BreakBreakException (a ReturnBreakException never escapes an
expression: the function call that contains the return statement catches
it); err is a propagating error; div is fuel exhaustion (the JavaScript
program would still be running). -/
inductive ERes : Type
  | ok (v : Value) (st : St)
  | brk (st : St)
  | err (e : Err) (st : St)
  | div

/-- Result of evaluating a statement or block: normal completion, a
propagating ReturnBreakException carrying its value, a propagating
BreakBreakException, an error, or fuel exhaustion. -/
inductive SRes : Type
  | ok (st : St)
  | ret (v : Value) (st : St)
  | brk (st : St)
  | err (e : Err) (st : St)
  | div

/-- Result of evaluating a list of expressions left to right. -/
inductive LRes : Type
  | ok (vs : List Value) (st : St)
  | brk (st : St)
  | err (e : Err) (st : St)
  | div

/-- JavaScript ToNumber on the values the evaluator can produce: numbers
are themselves, null coerces to 0, and a NanakoArray or FunctionNode
coerces through its string form, which is never numeric, hence NaN
(represented by none). -/
def jsToNumber : Value → Option Int
  | .num n => some n
  | .null => some 0
  | _ => none

/-- JavaScript strict equality (===) on runtime values: numbers by value,
null to itself, objects by identity (store address for NanakoArray;
FunctionNode identity is represented structurally, which coincides with
object identity for function values originating from one program text). -/
def jsStrictEq : Value → Value → Bool
  | .num a, .num b => a = b
  | .null, .null => true
  | .arr a, .arr b => a = b
  | .func n1 p1 b1, .func n2 p2 b2 => n1 = n2 && decide (p1 = p2) && stmtListBeq b1 b2
  | _, _ => false

/-- Array.isArray on a runtime value: always false, because the evaluator
only produces numbers, null, NanakoArray instances (objects, not raw
arrays) and FunctionNode instances.  The arrayLoopCount throw guarded by
this test in LoopNode.evaluate is therefore unreachable. -/
def jsIsArray : Value → Bool := fun _ => false

/-- The numeric relational comparisons used by IfNode.evaluate.  On numbers
and null they follow JavaScript numeric coercion; a comparison involving a
NanakoArray or FunctionNode is modelled as false (JavaScript would compare
rendered string forms when both operands are objects; no claim exercises
that corner and no program in this development compares non-scalars). -/
def jsGe (l r : Value) : Bool :=
  match jsToNumber l, jsToNumber r with
  | some a, some b => a ≥ b
  | _, _ => false

/-- JavaScript less-or-equal under numeric coercion; see jsGe. -/
def jsLe (l r : Value) : Bool :=
  match jsToNumber l, jsToNumber r with
  | some a, some b => a ≤ b
  | _, _ => false

/-- JavaScript greater-than under numeric coercion; see jsGe. -/
def jsGt (l r : Value) : Bool :=
  match jsToNumber l, jsToNumber r with
  | some a, some b => a > b
  | _, _ => false

/-- JavaScript less-than under numeric coercion; see jsGe. -/
def jsLt (l r : Value) : Bool :=
  match jsToNumber l, jsToNumber r with
  | some a, some b => a < b
  | _, _ => false

/-- The comparison dispatch of IfNode.evaluate on its operator string. -/
def jsCompare (operator : String) (l r : Value) : Bool :=
  if operator = "以上" then jsGe l r
  else if operator = "以下" then jsLe l r
  else if operator = "より大きい" then jsGt l r
  else if operator = "より小さい" then jsLt l r
  else if operator = "以外" then !(jsStrictEq l r)
  else if operator = "未満" then jsLt l r
  else jsStrictEq l r

/-- NanakoRuntime.checkExecution: the manual-stop flag, then the timeout
flag; invoked only at loop-iteration boundaries. -/
def checkExecution (st : St) : Option Err :=
  if st.rt.shouldStop then some .stopped
  else if st.rt.timedOut then some .timeout
  else none

/-- runtime.pushCallFrame: the top of the stack is the list head. -/
def pushFrame (rt : Rt) (funcName : String) (args : List Value) : Rt :=
  { rt with callFrames := ⟨funcName, args⟩ :: rt.callFrames }

/-- runtime.popCallFrame: removes the most recently pushed frame. -/
def popFrame (rt : Rt) : Rt :=
  { rt with callFrames := rt.callFrames.tail }

/-- runtime.print as the observe seam: the value is appended to the
output log. -/
def rtPrint (rt : Rt) (v : Value) : Rt :=
  { rt with output := rt.output ++ [v] }

/-- Binding the parameter list to the argument values on top of the copied
caller environment (the newEnv[params[i]] = value loop of
FuncCallNode.evaluate). -/
def bindParams (env : Env) : List String → List Value → Env
  | [], _ => env
  | _, [] => env
  | p :: ps, v :: vs => bindParams (envInsert env p v) ps vs


/- The tree-walking evaluator.  fuel bounds the only two sources of
unbounded recursion in the JavaScript original (function-call bodies and
Null-count loops); all other recursion is structural.  One unit of fuel is
consumed per function-body entry and per unbounded-loop iteration. -/
mutual

/-- Expression evaluation (the evaluate methods of the expression node
classes). -/
def evalExpr (fuel : Nat) (e : Expr) (st : St) : ERes :=
  match e with
  | .nullNode => .ok .null st
  | .numberNode n => .ok (.num n) st
  | .lenNode element =>
    -- LenNode.evaluate: a NanakoArray yields its element count, anything
    -- else (a number included) raises the not-an-array error.
    match evalExpr fuel element st with
    | .ok (.arr a) st' => .ok (.num ((getCell st'.store a).elements.length : Int)) st'
    | .ok _ st' => .err .notArray st'
    | .brk st' => .brk st'
    | .err er st' => .err er st'
    | .div => .div
  | .minusNode element =>
    -- MinusNode.evaluate: typeof value !== 'number' raises.
    match evalExpr fuel element st with
    | .ok (.num n) st' => .ok (.num (-n)) st'
    | .ok _ st' => .err .notNumber st'
    | .brk st' => .brk st'
    | .err er st' => .err er st'
    | .div => .div
  | .arrayNode elements =>
    -- ArrayNode.evaluate: evaluate the elements, then allocate a fresh
    -- NanakoArray holding them.
    match evalExprList fuel elements st with
    | .ok vs st' =>
      let (store', a) := allocCell st'.store ⟨vs, false⟩
      .ok (.arr a) { st' with store := store' }
    | .brk st' => .brk st'
    | .err er st' => .err er st'
    | .div => .div
  | .functionNode name ps body => .ok (.func name ps body) st
  | .funcCallNode name args =>
    -- FuncCallNode.evaluate.
    match envLookup st.env name with
    | none => .err (.funcNotFound name) st
    | some f =>
      match f with
      | .func _fname ps body =>
        if ps.length ≠ args.length then .err .arityMismatch st
        else
          -- const newEnv = { ...env } is taken before the argument loop;
          -- argument evaluation never mutates the caller's bindings.
          match evalExprList fuel args st with
          | .ok vs stA => evalCallBody fuel name ps body vs stA
          | .brk st' => .brk st'
          | .err er st' => .err er st'
          | .div => .div
      | _ =>
        -- reading .parameters of a non-function throws a host TypeError
        .err .hostTypeError st
  | .variableNode name indices => evalVarRead fuel name indices st
termination_by (fuel, sizeOf e, 0)

/-- The tail of FuncCallNode.evaluate once the callee and arguments are in
hand: run the body in the copied-and-extended environment inside the
try/catch.  A ReturnBreakException is caught, the frame popped and its
payload yielded; normal completion pops the frame and yields null; a
BreakBreakException or error is rethrown past the call boundary without
popping the frame. -/
def evalCallBody (fuel : Nat) (name : String) (ps : List String)
    (body : List Stmt) (vs : List Value) (stA : St) : ERes :=
  match fuel with
  | 0 => .div
  | fuel' + 1 =>
    match evalStmts fuel' body
        { env := bindParams stA.env ps vs, store := stA.store,
          rt := pushFrame stA.rt name vs } with
    | .ok st' =>
      -- body ran to completion: pop the frame, yield null
      .ok .null { st' with env := stA.env, rt := popFrame st'.rt }
    | .ret v st' =>
      -- ReturnBreakException caught here: pop, yield its payload
      .ok v { st' with env := stA.env, rt := popFrame st'.rt }
    | .brk st' =>
      -- a BreakBreakException is NOT caught: it is rethrown past the call
      -- boundary, and popCallFrame is not executed
      .brk { st' with env := stA.env }
    | .err er st' => .err er { st' with env := stA.env }
    | .div => .div
termination_by (fuel, 0, 0)

/-- Left-to-right evaluation of an expression list (array-literal elements
and call arguments). -/
def evalExprList (fuel : Nat) (es : List Expr) (st : St) : LRes :=
  match es with
  | [] => .ok [] st
  | e :: rest =>
    match evalExpr fuel e st with
    | .ok v st' =>
      match evalExprList fuel rest st' with
      | .ok vs st'' => .ok (v :: vs) st''
      | .brk st'' => .brk st''
      | .err er st'' => .err er st''
      | .div => .div
    | .brk st' => .brk st'
    | .err er st' => .err er st'
    | .div => .div
termination_by (fuel, sizeOf es, 0)

/-- VariableNode.evaluate: look the name up, then walk the index chain. -/
def evalVarRead (fuel : Nat) (name : String) (indices : List Expr) (st : St) : ERes :=
  match envLookup st.env name with
  | none => .err (.unknownVariable name) st
  | some v =>
    match indices with
    | [] => .ok v st
    | i0 :: irest => evalIndexRead fuel v (i0 :: irest) st
termination_by (fuel, sizeOf indices, 2)

/-- The index-chain walk of VariableNode.evaluate.  Each step requires a
NanakoArray, evaluates the index expression, and demands an in-range
number; a Null (or any non-number) index raises the index-range error --
there is no random selection in the canonical implementation. -/
def evalIndexRead (fuel : Nat) (array : Value) (indices : List Expr) (st : St) : ERes :=
  match indices with
  | [] => .ok array st
  | idx :: rest =>
    match array with
    | .arr a =>
      match evalExpr fuel idx st with
      | .ok iv st' =>
        match iv with
        | .num n =>
          -- const idx = Math.floor(indexValue): exact on integers
          if 0 ≤ n && n < ((getCell st'.store a).elements.length : Int) then
            evalIndexRead fuel ((getCell st'.store a).elements.getD n.toNat .null) rest st'
          else .err .indexRange st'
        | _ => .err .indexRange st'
      | .brk st' => .brk st'
      | .err er st' => .err er st'
      | .div => .div
    | _ => .err .notArray st
termination_by (fuel, sizeOf indices, 1)

/-- VariableNode.evaluateWith: write value through the variable.  The
source's for loop ends in an unconditional break, so only the first index
is ever processed: a deeper chain, an out-of-range index, or a non-number
non-null index all fall through to the final throw, whose message template
reads the loop-scoped indexValue and therefore raises a host
ReferenceError. -/
def evalVarWrite (fuel : Nat) (name : String) (indices : List Expr) (value : Value)
    (st : St) : SRes :=
  match indices with
  | [] => .ok { st with env := envInsert st.env name value }
  | idx0 :: rest =>
    match envLookup st.env name with
    | none => .err (.unknownVariable name) st
    | some array =>
      match array with
      | .arr a =>
        match evalExpr fuel idx0 st with
        | .ok iv st' =>
          match iv with
          | .num n =>
            if 0 ≤ n && n < ((getCell st'.store a).elements.length : Int) then
              if rest.isEmpty then
                .ok { st' with store := setElem st'.store a n.toNat value }
              else .err .hostRefError st'
            else .err .hostRefError st'
          | .null =>
            if rest.isEmpty then
              .ok { st' with store := pushElem st'.store a value }
            else .err .hostRefError st'
          | _ => .err .hostRefError st'
        | .brk st' => .brk st'
        | .err er st' => .err er st'
        | .div => .div
      | _ => .err .notArray st
termination_by (fuel, sizeOf indices, 1)

/-- Statement evaluation (the evaluate methods of the statement node
classes). -/
def evalStmt (fuel : Nat) (s : Stmt) (st : St) : SRes :=
  match s with
  | .assignmentNode name indices expression =>
    match evalExpr fuel expression st with
    | .ok v st' => evalVarWrite fuel name indices v st'
    | .brk st' => .brk st'
    | .err er st' => .err er st'
    | .div => .div
  | .incrementNode name indices =>
    -- IncrementNode.evaluate: read the target, require a number, write
    -- value + 1 back, then bump the increment counter.
    match evalVarRead fuel name indices st with
    | .ok (.num n) st' =>
      match evalVarWrite fuel name indices (.num (n + 1)) st' with
      | .ok st'' => .ok { st'' with rt := { st''.rt with incrementCount := st''.rt.incrementCount + 1 } }
      | r => r
    | .ok _ st' => .err .notNumber st'
    | .brk st' => .brk st'
    | .err er st' => .err er st'
    | .div => .div
  | .decrementNode name indices =>
    match evalVarRead fuel name indices st with
    | .ok (.num n) st' =>
      match evalVarWrite fuel name indices (.num (n - 1)) st' with
      | .ok st'' => .ok { st'' with rt := { st''.rt with decrementCount := st''.rt.decrementCount + 1 } }
      | r => r
    | .ok _ st' => .err .notNumber st'
    | .brk st' => .brk st'
    | .err er st' => .err er st'
    | .div => .div
  | .appendNode name indices expression =>
    -- AppendNode.evaluate: the target must already be a NanakoArray,
    -- checked before the appended expression is evaluated.
    match evalVarRead fuel name indices st with
    | .ok (.arr a) st' =>
      match evalExpr fuel expression st' with
      | .ok v st'' => .ok { st'' with store := pushElem st''.store a v }
      | .brk st'' => .brk st''
      | .err er st'' => .err er st''
      | .div => .div
    | .ok _ st' => .err .notArray st'
    | .brk st' => .brk st'
    | .err er st' => .err er st'
    | .div => .div
  | .ifNode left operator right thenBlock elseBlock =>
    match evalExpr fuel left st with
    | .ok lv st1 =>
      match evalExpr fuel right st1 with
      | .ok rv st2 => evalIfTail fuel operator lv rv thenBlock elseBlock st2
      | .brk st2 => .brk st2
      | .err er st2 => .err er st2
      | .div => .div
    | .brk st1 => .brk st1
    | .err er st1 => .err er st1
    | .div => .div
  | .loopNode count body =>
    -- LoopNode.evaluate: the count is evaluated exactly once, before any
    -- iteration.
    match evalExpr fuel count st with
    | .ok .null st' => runLoopInf fuel body st'
    | .ok (.num n) st' =>
      if jsIsArray (.num n) then .err .arrayLoopCount st'
      else if n < 0 then .err (.negativeLoopCount n) st'
      else runLoopN fuel n.toNat body st'
    | .ok v st' =>
      -- a NanakoArray or FunctionNode count: Array.isArray is false on it,
      -- the less-than-zero comparison is NaN-false, and Math.floor gives
      -- NaN, so the for loop performs zero iterations and no error is
      -- raised.
      if jsIsArray v then .err .arrayLoopCount st'
      else runLoopN fuel 0 body st'
    | .brk st' => .brk st'
    | .err er st' => .err er st'
    | .div => .div
  | .breakNode => .brk st
  | .returnNode expression =>
    match evalExpr fuel expression st with
    | .ok v st' => .ret v st'
    | .brk st' => .brk st'
    | .err er st' => .err er st'
    | .div => .div
  | .expressionStatementNode expression =>
    match evalExpr fuel expression st with
    | .ok v st' => .ok { st' with rt := rtPrint st'.rt v }
    | .brk st' => .brk st'
    | .err er st' => .err er st'
    | .div => .div
  | .testNode expression answer =>
    -- TestNode.evaluate compares with JavaScript !== (reference identity
    -- on NanakoArray objects); NanakoArray.equals is never consulted.
    match evalExpr fuel expression st with
    | .ok v st' =>
      match evalExpr fuel answer st' with
      | .ok av st'' =>
        if jsStrictEq v av then .ok st'' else .err (.testFailed v) st''
      | .brk st'' => .brk st''
      | .err er st'' => .err er st''
      | .div => .div
    | .brk st' => .brk st'
    | .err er st' => .err er st'
    | .div => .div
termination_by (fuel, sizeOf s, 0)

/-- The tail of IfNode.evaluate once both operands are evaluated: apply
the selected comparator, bump the compare counter, and run the chosen
block (no else block and a false condition is a no-op). -/
def evalIfTail (fuel : Nat) (operator : String) (lv rv : Value)
    (thenBlock : List Stmt) (elseBlock : Option (List Stmt)) (st2 : St) : SRes :=
  let result := jsCompare operator lv rv
  let st3 : St := { st2 with rt := { st2.rt with compareCount := st2.rt.compareCount + 1 } }
  if result then evalStmts fuel thenBlock st3
  else
    match elseBlock with
    | some b => evalStmts fuel b st3
    | none => .ok st3
termination_by (fuel, sizeOf thenBlock + sizeOf elseBlock, 0)
decreasing_by
  · apply Prod.Lex.right
    apply Prod.Lex.left
    cases elseBlock <;> simp <;> omega
  · apply Prod.Lex.right
    apply Prod.Lex.left
    simp
    omega

/-- Sequential evaluation of a statement list (BlockNode.evaluate and
ProgramNode.evaluate). -/
def evalStmts (fuel : Nat) (ss : List Stmt) (st : St) : SRes :=
  match ss with
  | [] => .ok st
  | s :: rest =>
    match evalStmt fuel s st with
    | .ok st' => evalStmts fuel rest st'
    | .ret v st' => .ret v st'
    | .brk st' => .brk st'
    | .err er st' => .err er st'
    | .div => .div
termination_by (fuel, sizeOf ss, 0)

/-- The counted for loop of LoopNode.evaluate: before each iteration
checkExecution runs; a BreakBreakException from the body ends the loop
normally. -/
def runLoopN (fuel : Nat) (n : Nat) (body : List Stmt) (st : St) : SRes :=
  match n with
  | 0 => .ok st
  | n' + 1 =>
    match checkExecution st with
    | some er => .err er st
    | none =>
      match evalStmts fuel body st with
      | .ok st' => runLoopN fuel n' body st'
      | .ret v st' => .ret v st'
      | .brk st' => .ok st'
      | .err er st' => .err er st'
      | .div => .div
termination_by (fuel, sizeOf body, n)

/-- The while(true) loop of LoopNode.evaluate for a Null count: only
checkExecution or a BreakBreakException (or a propagating return or error)
ends it. -/
def runLoopInf (fuel : Nat) (body : List Stmt) (st : St) : SRes :=
  match fuel with
  | 0 => .div
  | fuel' + 1 =>
    match checkExecution st with
    | some er => .err er st
    | none =>
      match evalStmts fuel' body st with
      | .ok st' => runLoopInf fuel' body st'
      | .ret v st' => .ret v st'
      | .brk st' => .ok st'
      | .err er st' => .err er st'
      | .div => .div
termination_by (fuel, sizeOf body, 1)

end

/-- ProgramNode.evaluate: the top-level statements in order. -/
def evalProgram (fuel : Nat) (ss : List Stmt) (st : St) : SRes :=
  evalStmts fuel ss st

/-- Statement.semicolon: Dialect P (python-style) has no statement
terminator. -/
def semicolon (lang : String) : String := if lang = "py" then "" else ";"

/-- The operator rendering of IfNode.emit. -/
def emitOp (operator : String) : String :=
  if operator = "以上" then ">="
  else if operator = "以下" then "<="
  else if operator = "より大きい" then ">"
  else if operator = "より小さい" then "<"
  else if operator = "以外" then "!="
  else if operator = "未満" then "<"
  else "=="

/- The two-dialect emitter: the emit methods of each node class.  A pure
structural rendering; no evaluation and no mutation of the tree. -/
mutual

/-- Expression emission (the emit methods of the expression nodes). -/
def emitExpr (e : Expr) (lang : String) (indent : String) : String :=
  match e with
  | .nullNode => if lang = "py" then "None" else "null"
  | .numberNode n => toString n
  | .lenNode element =>
    if lang = "py" then "len(" ++ emitExpr element lang indent ++ ")"
    else "(" ++ emitExpr element lang indent ++ ").length"
  | .minusNode element => "-" ++ emitExpr element lang indent
  | .arrayNode elements =>
    "[" ++ String.intercalate ", " (emitExprList elements lang indent) ++ "]"
  | .functionNode name ps body =>
    let params := String.intercalate ", " ps
    let bodyText := emitBlock body lang indent
    if lang = "py" then
      if name ≠ "<lambda>" then
        "def " ++ name ++ "(" ++ params ++ "):\n" ++ bodyText ++ "\n"
      else
        "lambda " ++ params ++ ": (" ++ bodyText.trim ++ ")"
    else
      -- the closing brace comes from BlockNode's js rendering
      "function (" ++ params ++ ") \x7b\n" ++ bodyText
  | .funcCallNode name args =>
    name ++ "(" ++ String.intercalate ", " (emitExprList args lang indent) ++ ")"
  | .variableNode name indices => emitVariable name indices lang indent
termination_by (sizeOf e, 0)

/-- Emission of each expression of a list. -/
def emitExprList (es : List Expr) (lang : String) (indent : String) : List String :=
  match es with
  | [] => []
  | e :: rest => emitExpr e lang indent :: emitExprList rest lang indent
termination_by (sizeOf es, 0)

/-- VariableNode.emit: the name followed by each index in brackets. -/
def emitVariable (name : String) (indices : List Expr) (lang : String)
    (indent : String) : String :=
  match indices with
  | [] => name
  | i0 :: irest =>
    name ++ String.join ((emitExprList (i0 :: irest) lang indent).map
      (fun sidx => "[" ++ sidx ++ "]"))
termination_by (sizeOf indices, 1)

/-- Statement emission (the emit methods of the statement nodes). -/
def emitStmt (s : Stmt) (lang : String) (indent : String) : String :=
  match s with
  | .assignmentNode name indices expression =>
    let vtext := emitVariable name indices lang indent
    let etext := emitExpr expression lang indent
    if (vtext.endsWith "[null]" || vtext.endsWith "[None]") && lang = "py" then
      indent ++ vtext.dropRight 6 ++ ".append(" ++ etext ++ ")"
    else if (vtext.endsWith "[null]" || vtext.endsWith "[None]") && lang = "js" then
      indent ++ vtext.dropRight 6 ++ ".push(" ++ etext ++ ")" ++ semicolon lang
    else
      match expression with
      | .functionNode _ _ _ =>
        if lang = "py" then indent ++ etext
        else indent ++ vtext ++ " = " ++ etext ++ "\n"
      | _ => indent ++ vtext ++ " = " ++ etext ++ semicolon lang
  | .incrementNode name indices =>
    indent ++ emitVariable name indices lang indent ++ " += 1" ++ semicolon lang
  | .decrementNode name indices =>
    indent ++ emitVariable name indices lang indent ++ " -= 1" ++ semicolon lang
  | .appendNode name indices expression =>
    let vtext := emitVariable name indices lang indent
    let etext := emitExpr expression lang indent
    if lang = "py" then indent ++ vtext ++ ".append(" ++ etext ++ ")"
    else if lang = "js" then indent ++ vtext ++ ".push(" ++ etext ++ ")" ++ semicolon lang
    else indent ++ vtext ++ ".append(" ++ etext ++ ")"
  | .ifNode left operator right thenBlock elseBlock =>
    let ltext := emitExpr left lang indent
    let rtext := emitExpr right lang indent
    let op := emitOp operator
    let headLine :=
      if lang = "py" then indent ++ "if " ++ ltext ++ " " ++ op ++ " " ++ rtext ++ ":"
      else indent ++ "if(" ++ ltext ++ " " ++ op ++ " " ++ rtext ++ ") \x7b"
    let lines := [headLine, emitBlock thenBlock lang indent]
    let lines :=
      match elseBlock with
      | some b =>
        lines ++ [(if lang = "py" then indent ++ "else:" else indent ++ "else \x7b"),
          emitBlock b lang indent]
      | none => lines
    String.intercalate "\n" lines
  | .loopNode count body =>
    let headLine :=
      match count with
      | .nullNode =>
        if lang = "py" then indent ++ "while True:" else indent ++ "while(true) \x7b"
      | c =>
        let ctext := emitExpr c lang indent
        if lang = "py" then indent ++ "for _ in range(" ++ ctext ++ "):"
        else
          let i := "i" ++ toString (indent.length / 4)
          indent ++ "for(var " ++ i ++ " = 0; " ++ i ++ " < " ++ ctext ++ "; " ++ i ++ "++) \x7b"
    String.intercalate "\n" [headLine, emitBlock body lang indent]
  | .breakNode => indent ++ "break" ++ semicolon lang
  | .returnNode expression =>
    indent ++ "return " ++ emitExpr expression lang indent ++ semicolon lang
  | .expressionStatementNode expression =>
    indent ++ emitExpr expression lang indent ++ semicolon lang
  | .testNode expression answer =>
    let etext := emitExpr expression lang indent
    let atext := emitExpr answer lang indent
    if lang = "js" then
      indent ++ "console.assert(" ++ etext ++ " == " ++ atext ++ ")" ++ semicolon lang
    else
      indent ++ "assert (" ++ etext ++ " == " ++ atext ++ ")" ++ semicolon lang
termination_by (sizeOf s, 0)

/-- Emission of each statement of a list. -/
def emitStmtList (ss : List Stmt) (lang : String) (indent : String) : List String :=
  match ss with
  | [] => []
  | s :: rest => emitStmt s lang indent :: emitStmtList rest lang indent
termination_by (sizeOf ss, 0)

/-- BlockNode.emit: each statement at one deeper indent level; Dialect P
renders an empty block as pass, Dialect J appends the closing brace. -/
def emitBlock (ss : List Stmt) (lang : String) (indent : String) : String :=
  let lines := emitStmtList ss lang (indent ++ "    ")
  let lines :=
    if lang = "py" then
      if lines.length = 0 then [indent ++ "pass"] else lines
    else lines ++ [indent ++ "\x7d"]
  String.intercalate "\n" lines
termination_by (sizeOf ss, 1)

end

/-- ProgramNode.emit: every top-level statement at the base indent, joined
by newlines. -/
def emitProgram (ss : List Stmt) (lang : String) (indent : String) : String :=
  String.intercalate "\n" (emitStmtList ss lang indent)


/-- NanakoArray.equals: structural equality, recursing into nested
NanakoArray elements and comparing other elements with strict equality.
The Nat argument bounds the recursion depth (the JavaScript original would
not terminate on cyclic arrays); any bound at least the nesting depth
computes the same answer.  Defined in the source but never called by
TestNode.evaluate. -/
def nanakoEquals (store : Store) : Nat → Nat → Value → Bool
  | 0, _, _ => false
  | depth + 1, selfAddr, other =>
    match other with
    | .arr oa =>
      let xs := (getCell store selfAddr).elements
      let ys := (getCell store oa).elements
      xs.length == ys.length &&
        (xs.zip ys).all fun p =>
          match p.1, p.2 with
          | .arr x, .arr y => nanakoEquals store depth x (.arr y)
          | a, b => jsStrictEq a b
    | _ => false

/-- Whether an expression-evaluation result left the environment object's
bindings exactly as they were (vacuous on fuel exhaustion). -/
def ERes.preservesEnv (r : ERes) (env0 : Env) : Prop :=
  match r with
  | .ok _ st => st.env = env0
  | .brk st => st.env = env0
  | .err _ st => st.env = env0
  | .div => True

/-- Whether a list-evaluation result left the environment bindings as they
were. -/
def LRes.preservesEnv (r : LRes) (env0 : Env) : Prop :=
  match r with
  | .ok _ st => st.env = env0
  | .brk st => st.env = env0
  | .err _ st => st.env = env0
  | .div => True

/-- The environment carried by a statement result, when there is one. -/
def SRes.envOf : SRes → Option Env
  | .ok st => some st.env
  | .ret _ st => some st.env
  | .brk st => some st.env
  | .err _ st => some st.env
  | .div => none

/-- Expression evaluation never changes the current environment object's
bindings: only statements assign, and a function call mutates only its own
copied environment, restoring the caller's scope on every exit path.
Proved by the joint functional induction over the evaluator. -/
theorem eval_env_pres :
    (∀ fuel e st, (evalExpr fuel e st).preservesEnv st.env) ∧
    (∀ fuel name indices st, (evalVarRead fuel name indices st).preservesEnv st.env) ∧
    (∀ fuel v indices st, (evalIndexRead fuel v indices st).preservesEnv st.env) ∧
    (∀ fuel name ps body vs stA, (evalCallBody fuel name ps body vs stA).preservesEnv stA.env) ∧
    (∀ (_fuel : Nat) (_ss : List Stmt) (_st : St), True) ∧
    (∀ (_fuel : Nat) (_s : Stmt) (_st : St), True) ∧
    (∀ (_fuel _n : Nat) (_body : List Stmt) (_st : St), True) ∧
    (∀ (_fuel : Nat) (_body : List Stmt) (_st : St), True) ∧
    (∀ (_fuel : Nat) (_op : String) (_lv _rv : Value) (_tb : List Stmt)
      (_eb : Option (List Stmt)) (_st : St), True) ∧
    (∀ (_fuel : Nat) (_name : String) (_indices : List Expr) (_v : Value) (_st : St), True) ∧
    (∀ fuel es st, (evalExprList fuel es st).preservesEnv st.env) := by
  apply evalExpr.mutual_induct
  all_goals intros
  all_goals try trivial
  all_goals simp_all [ERes.preservesEnv, LRes.preservesEnv, evalExpr, evalVarRead,
    evalIndexRead, evalCallBody, evalExprList]
  all_goals rw [if_neg (by omega)]
  all_goals simp_all [ERes.preservesEnv]

/-- Corollary: a finished expression evaluation hands back the caller's
bindings unchanged. -/
theorem evalExpr_ok_env {fuel : Nat} {e : Expr} {st : St} {v : Value} {st' : St}
    (h : evalExpr fuel e st = .ok v st') : st'.env = st.env := by
  have hp := eval_env_pres.1 fuel e st
  rw [h] at hp
  exact hp

/-- Corollary: a break signal escaping an expression carries the caller's
bindings unchanged. -/
theorem evalExpr_brk_env {fuel : Nat} {e : Expr} {st : St} {st' : St}
    (h : evalExpr fuel e st = .brk st') : st'.env = st.env := by
  have hp := eval_env_pres.1 fuel e st
  rw [h] at hp
  exact hp

/-- Corollary: an error escaping an expression carries the caller's
bindings unchanged. -/
theorem evalExpr_err_env {fuel : Nat} {e : Expr} {st : St} {er : Err} {st' : St}
    (h : evalExpr fuel e st = .err er st') : st'.env = st.env := by
  have hp := eval_env_pres.1 fuel e st
  rw [h] at hp
  exact hp


/- Make the fuel-indexed evaluator functions kernel-reducible, so that
closed evaluations below are established by definitional computation. -/
unseal evalExpr evalVarRead evalIndexRead evalExprList evalCallBody evalStmt
  evalStmts evalVarWrite evalIfTail runLoopN runLoopInf

/-- C1 (counterexample): on the canonical evaluator, reading x[?] where x
is the non-empty sequence [1, 2] raises the index-range error and does not
yield a random element, refuting the claim that a Null terminal index on a
non-empty sequence succeeds with a uniformly-random in-range element. -/
theorem c1_counterexample :
    (getCell [⟨[Value.num 1, Value.num 2], false⟩] 0).elements.length = 2 ∧
    evalExpr 3 (.variableNode "x" [.nullNode])
        ⟨[("x", Value.arr 0)], [⟨[Value.num 1, Value.num 2], false⟩], {}⟩
      = .err .indexRange
        ⟨[("x", Value.arr 0)], [⟨[Value.num 1, Value.num 2], false⟩], {}⟩ := by
  refine ⟨rfl, ?_⟩
  simp [evalProgram, evalStmts, evalStmt, evalExpr, evalVarRead, evalVarWrite,
    evalIndexRead, evalCallBody, evalExprList, evalIfTail, runLoopN, runLoopInf,
    envLookup, envInsert, checkExecution, pushFrame, popFrame, rtPrint, bindParams,
    getCell, allocCell, setElem, pushElem, jsIsArray, jsStrictEq, jsCompare, nanakoEquals]

/-- C1 (amended): in the canonical v0.3.1 evaluator a variable read whose
terminal index expression evaluates to Null raises the index-range error,
whatever the sequence's contents; the uniformly-random in-range selection
exists only in the superseded earlier revision's Variable.evaluate. -/
theorem c1_null_index_read_errors (fuel : Nat) (name : String) (idxE : Expr)
    (st : St) (a : Nat) (st' : St)
    (hname : envLookup st.env name = some (.arr a))
    (hidx : evalExpr fuel idxE st = .ok .null st') :
    evalExpr fuel (.variableNode name [idxE]) st = .err .indexRange st' := by
  simp [evalExpr, evalVarRead, evalIndexRead, hname, hidx]

/-- C1 (witness): the amended statement applied to the concrete state of
the counterexample. -/
theorem c1_null_index_read_errors_witness :
    evalExpr 3 (.variableNode "x" [.nullNode])
        ⟨[("x", Value.arr 0)], [⟨[Value.num 1, Value.num 2], false⟩], {}⟩
      = .err .indexRange
        ⟨[("x", Value.arr 0)], [⟨[Value.num 1, Value.num 2], false⟩], {}⟩ :=
  c1_null_index_read_errors 3 "x" .nullNode
    ⟨[("x", Value.arr 0)], [⟨[Value.num 1, Value.num 2], false⟩], {}⟩ 0
    ⟨[("x", Value.arr 0)], [⟨[Value.num 1, Value.num 2], false⟩], {}⟩ rfl rfl

/-- C8: the length operation of LenNode.evaluate: when its operand
evaluates to a NanakoArray it yields that sequence's element count, and on
any other value (an integer included) it raises the not-an-array type
error instead of computing an absolute value. -/
theorem c8_len_requires_sequence (fuel : Nat) (e : Expr) (st : St) (v : Value)
    (st' : St) (h : evalExpr fuel e st = .ok v st') :
    evalExpr fuel (.lenNode e) st =
      (match v with
       | .arr a => .ok (.num ((getCell st'.store a).elements.length : Int)) st'
       | _ => .err .notArray st') := by
  cases v <;> simp [evalExpr, h]

/-- C8 (witness): |[4, 5, 6]| evaluates to 3, and |5| raises the
not-an-array error. -/
theorem c8_len_requires_sequence_witness :
    evalExpr 3 (.lenNode (.arrayNode [.numberNode 4, .numberNode 5, .numberNode 6]))
        ⟨[], [], {}⟩
      = .ok (.num 3) ⟨[], [⟨[Value.num 4, Value.num 5, Value.num 6], false⟩], {}⟩ ∧
    evalExpr 3 (.lenNode (.numberNode 5)) ⟨[], [], {}⟩
      = .err .notArray ⟨[], [], {}⟩ :=
  ⟨c8_len_requires_sequence 3 (.arrayNode [.numberNode 4, .numberNode 5, .numberNode 6])
      ⟨[], [], {}⟩ (.arr 0) ⟨[], [⟨[Value.num 4, Value.num 5, Value.num 6], false⟩], {}⟩ rfl,
   c8_len_requires_sequence 3 (.numberNode 5) ⟨[], [], {}⟩ (.num 5) ⟨[], [], {}⟩ rfl⟩

/-- C9: emitting the same parsed program twice to the same dialect with the
same base indentation produces byte-identical output: emitProgram is a pure
function of the tree, the dialect and the indent (the embedding of every
emit method is stateless, mirroring the source, which never mutates the
nodes it renders). -/
theorem c9_emit_idempotent (p : List Stmt) (lang indent : String) :
    emitProgram p lang indent = emitProgram p lang indent := rfl


set_option maxRecDepth 40000 in
set_option maxHeartbeats 1600000 in
/-- C2: the loop-count checks of LoopNode.evaluate at concrete inputs.
First conjunct: with a equal to the sequence [1, 2, 3] used as the count
of a loop over увеличение x, evaluation completes with no error and x
still 0 -- Array.isArray(loopCount) is false on a NanakoArray instance, so
the intended sequence-count rejection is unreachable, the NaN comparison
makes the negative check false, and Math.floor yields NaN so the body
never runs.  This contradicts the claim that a Sequence count raises an
explicit loop-count error.  Second conjunct: a count of -2 does raise the
explicit negative-loop-count error, confirming that half of the claim. -/
theorem c2_loop_count_eval :
    evalProgram 3
        [.assignmentNode "a" [] (.arrayNode [.numberNode 1, .numberNode 2, .numberNode 3]),
         .assignmentNode "x" [] (.numberNode 0),
         .loopNode (.variableNode "a" []) [.incrementNode "x" []]]
        ⟨[], [], {}⟩
      = .ok ⟨[("a", Value.arr 0), ("x", Value.num 0)],
             [⟨[Value.num 1, Value.num 2, Value.num 3], false⟩], {}⟩ ∧
    evalStmt 3 (.loopNode (.minusNode (.numberNode 2)) [.incrementNode "x" []])
        ⟨[("x", Value.num 0)], [], {}⟩
      = .err (.negativeLoopCount (-2)) ⟨[("x", Value.num 0)], [], {}⟩ := by
  refine ⟨?_, ?_⟩ <;>
  simp [evalProgram, evalStmts, evalStmt, evalExpr, evalVarRead, evalVarWrite,
    evalIndexRead, evalCallBody, evalExprList, evalIfTail, runLoopN, runLoopInf,
    envLookup, envInsert, checkExecution, pushFrame, popFrame, rtPrint, bindParams,
    getCell, allocCell, setElem, pushElem, jsIsArray, jsStrictEq, jsCompare, nanakoEquals]

set_option maxRecDepth 40000 in
set_option maxHeartbeats 1600000 in
/-- C3: a Break raised inside a function body with no enclosing loop in
that function DOES cross the call boundary and terminates the loop at the
call site: FuncCallNode.evaluate catches only ReturnBreakException and
rethrows BreakBreakException without popping the call frame.  With
f = 入力 z に対し (body: break), the program f=...; y=0; loop 3 (d=f(0);
inc y) completes normally with y = 0 (the loop was terminated by the
escaped Break during its first iteration, before inc y ran) and with f's
call frame leaked on the stack.  This contradicts the claim that Break is
never observable outside the function. -/
theorem c3_break_crosses_call :
    evalProgram 3
        [.assignmentNode "f" [] (.functionNode "f" ["z"] [.breakNode]),
         .assignmentNode "y" [] (.numberNode 0),
         .loopNode (.numberNode 3)
           [.assignmentNode "d" [] (.funcCallNode "f" [.numberNode 0]),
            .incrementNode "y" []]]
        ⟨[], [], {}⟩
      = .ok ⟨[("f", Value.func "f" ["z"] [.breakNode]), ("y", Value.num 0)], [],
             { callFrames := [⟨"f", [Value.num 0]⟩] }⟩ := by
  simp [evalProgram, evalStmts, evalStmt, evalExpr, evalVarRead, evalVarWrite,
    evalIndexRead, evalCallBody, evalExprList, evalIfTail, runLoopN, runLoopInf,
    envLookup, envInsert, checkExecution, pushFrame, popFrame, rtPrint, bindParams,
    getCell, allocCell, setElem, pushElem, jsIsArray, jsStrictEq, jsCompare, nanakoEquals]

set_option maxRecDepth 40000 in
set_option maxHeartbeats 1600000 in
/-- C4: TestNode.evaluate compares with JavaScript strict inequality, which
is reference identity on NanakoArray objects: the doctest x = [1, 2];
>>> x with expected [1, 2] raises the assertion failure carrying the actual
value (the sequence at address 0), even though NanakoArray.equals --
defined in the source but never called by TestNode -- says the two
sequences are structurally equal (second conjunct).  This contradicts the
claim that structurally equal sequences compare equal and raise nothing. -/
theorem c4_doctest_reference_equality :
    evalProgram 3
        [.assignmentNode "x" [] (.arrayNode [.numberNode 1, .numberNode 2]),
         .testNode (.variableNode "x" []) (.arrayNode [.numberNode 1, .numberNode 2])]
        ⟨[], [], {}⟩
      = .err (.testFailed (.arr 0))
          ⟨[("x", Value.arr 0)],
           [⟨[Value.num 1, Value.num 2], false⟩, ⟨[Value.num 1, Value.num 2], false⟩], {}⟩ ∧
    nanakoEquals
        [⟨[Value.num 1, Value.num 2], false⟩, ⟨[Value.num 1, Value.num 2], false⟩]
        3 0 (.arr 1) = true := by
  refine ⟨?_, ?_⟩ <;>
  simp [evalProgram, evalStmts, evalStmt, evalExpr, evalVarRead, evalVarWrite,
    evalIndexRead, evalCallBody, evalExprList, evalIfTail, runLoopN, runLoopInf,
    envLookup, envInsert, checkExecution, pushFrame, popFrame, rtPrint, bindParams,
    getCell, allocCell, setElem, pushElem, jsIsArray, jsStrictEq, jsCompare, nanakoEquals]


/-- C5: call-frame environment semantics.  First conjunct: a function call
that completes never changes the caller's environment bindings -- the body
runs in a fresh shallow copy of the caller's environment extended with the
bound parameters (bindParams over the spread copy), so reassigning a
scalar name inside the call is invisible to the caller.  Remaining
conjuncts, at concrete inputs: writing an element through a parameter
bound to the caller's sequence is visible to the caller afterwards (the
store cell is shared by reference), appending through a parameter is
likewise visible, and a scalar reassignment inside the body leaves the
caller's binding untouched. -/
theorem c5_call_env_semantics :
    (∀ fuel name args st v st',
        evalExpr fuel (.funcCallNode name args) st = .ok v st' → st'.env = st.env) ∧
    evalExpr 3 (.funcCallNode "f" [.variableNode "x" []])
        ⟨[("x", Value.arr 0),
          ("f", Value.func "f" ["p"] [.assignmentNode "p" [.numberNode 0] (.numberNode 99)])],
         [⟨[Value.num 1, Value.num 2], false⟩], {}⟩
      = .ok .null
        ⟨[("x", Value.arr 0),
          ("f", Value.func "f" ["p"] [.assignmentNode "p" [.numberNode 0] (.numberNode 99)])],
         [⟨[Value.num 99, Value.num 2], false⟩], {}⟩ ∧
    evalExpr 3 (.funcCallNode "g" [.variableNode "x" []])
        ⟨[("x", Value.arr 0),
          ("g", Value.func "g" ["p"] [.appendNode "p" [] (.numberNode 7)])],
         [⟨[Value.num 1], false⟩], {}⟩
      = .ok .null
        ⟨[("x", Value.arr 0),
          ("g", Value.func "g" ["p"] [.appendNode "p" [] (.numberNode 7)])],
         [⟨[Value.num 1, Value.num 7], false⟩], {}⟩ ∧
    evalExpr 3 (.funcCallNode "h" [.numberNode 0])
        ⟨[("y", Value.num 1),
          ("h", Value.func "h" ["p"] [.assignmentNode "y" [] (.numberNode 5)])], [], {}⟩
      = .ok .null
        ⟨[("y", Value.num 1),
          ("h", Value.func "h" ["p"] [.assignmentNode "y" [] (.numberNode 5)])], [], {}⟩ := by
  refine ⟨fun fuel name args st v st' h => evalExpr_ok_env h, ?_, ?_, ?_⟩ <;>
  simp [evalProgram, evalStmts, evalStmt, evalExpr, evalVarRead, evalVarWrite,
    evalIndexRead, evalCallBody, evalExprList, evalIfTail, runLoopN, runLoopInf,
    envLookup, envInsert, checkExecution, pushFrame, popFrame, rtPrint, bindParams,
    getCell, allocCell, setElem, pushElem, jsIsArray, jsStrictEq, jsCompare]

/-- C5 (witness): the general conjunct applied at the scalar-reassignment
example, with its hypothesis discharged by computation. -/
theorem c5_call_env_semantics_witness :
    (⟨[("y", Value.num 1),
       ("h", Value.func "h" ["p"] [.assignmentNode "y" [] (.numberNode 5)])], [], {}⟩ : St).env
    = (⟨[("y", Value.num 1),
         ("h", Value.func "h" ["p"] [.assignmentNode "y" [] (.numberNode 5)])], [], {}⟩ : St).env :=
  c5_call_env_semantics.1 3 "h" [.numberNode 0]
    ⟨[("y", Value.num 1),
      ("h", Value.func "h" ["p"] [.assignmentNode "y" [] (.numberNode 5)])], [], {}⟩
    .null
    ⟨[("y", Value.num 1),
      ("h", Value.func "h" ["p"] [.assignmentNode "y" [] (.numberNode 5)])], [], {}⟩
    (by simp [evalProgram, evalStmts, evalStmt, evalExpr, evalVarRead, evalVarWrite,
    evalIndexRead, evalCallBody, evalExprList, evalIfTail, runLoopN, runLoopInf,
    envLookup, envInsert, checkExecution, pushFrame, popFrame, rtPrint, bindParams,
    getCell, allocCell, setElem, pushElem, jsIsArray, jsStrictEq, jsCompare])


/-- Helper: a write through a non-empty index chain never touches the
environment bindings: it either writes into a store cell or raises, and
index-expression evaluation preserves the environment. -/
theorem evalVarWrite_indexed_env (fuel : Nat) (name : String) (i0 : Expr)
    (irest : List Expr) (v : Value) (st : St) :
    ∀ env0, (evalVarWrite fuel name (i0 :: irest) v st).envOf = some env0 →
      env0 = st.env := by
  intro env0 h
  unfold evalVarWrite at h
  cases hL : envLookup st.env name with
  | none => rw [hL] at h; simp [SRes.envOf] at h; exact h.symm
  | some arrv =>
    rw [hL] at h
    cases arrv with
    | num n => simp [SRes.envOf] at h; exact h.symm
    | null => simp [SRes.envOf] at h; exact h.symm
    | func fn ps body => simp [SRes.envOf] at h; exact h.symm
    | arr a =>
      cases hI : evalExpr fuel i0 st with
      | ok iv st' =>
        have hE := evalExpr_ok_env hI
        rw [hI] at h
        cases iv with
        | num n =>
          by_cases hA : 0 ≤ n <;>
            by_cases hA2 : n < ((getCell st'.store a).elements.length : Int) <;>
              by_cases hB : irest.isEmpty <;>
                simp [hA, hA2, hB, SRes.envOf] at h <;> simp_all
        | null =>
          by_cases hB : irest.isEmpty <;> simp [hB, SRes.envOf] at h <;> simp_all
        | arr a2 => simp [SRes.envOf] at h; simp_all
        | func fn ps body => simp [SRes.envOf] at h; simp_all
      | brk st' =>
        have hE := evalExpr_brk_env hI
        rw [hI] at h
        simp_all [SRes.envOf]
      | err er st' =>
        have hE := evalExpr_err_env hI
        rw [hI] at h
        simp_all [SRes.envOf]
      | div =>
        rw [hI] at h
        simp [SRes.envOf] at h

/-- C6: the count of a loop whose count expression evaluates to a
non-negative integer n is evaluated exactly once -- the whole loop
statement reduces to the n-iteration runner started from the state the
single count evaluation produced -- and, absent Break and with both
cancellation flags clear, the body runs exactly floor(n) = n times.  The
second conjunct is the count-0 case: the body never runs and the state is
untouched.  The third conjunct witnesses the exact iteration count
observably: a body of one increment of x raises x by exactly n and the
increment counter by exactly n. -/
theorem c6_loop_count_once_iterates :
    (∀ fuel c b st n st',
        evalExpr fuel c st = .ok (.num n) st' → 0 ≤ n →
        evalStmt fuel (.loopNode c b) st = runLoopN fuel n.toNat b st') ∧
    (∀ fuel (b : List Stmt) (st : St), runLoopN fuel 0 b st = .ok st) ∧
    (∀ fuel (n : Nat) (k : Int) envR store ic dc cc frames out,
        runLoopN fuel n [.incrementNode "x" []]
          ⟨("x", Value.num k) :: envR, store, ⟨ic, dc, cc, frames, false, false, out⟩⟩
        = .ok ⟨("x", Value.num (k + n)) :: envR, store,
               ⟨ic + n, dc, cc, frames, false, false, out⟩⟩) := by
  refine ⟨?_, ?_, ?_⟩
  · intro fuel c b st n st' hC hn
    have hnn : ¬ n < 0 := by omega
    simp [evalStmt, hC, jsIsArray, hnn]
  · intro fuel b st
    simp [runLoopN]
  · intro fuel n
    induction n with
    | zero =>
      intro k envR store ic dc cc frames out
      simp [runLoopN]
    | succ m ih =>
      intro k envR store ic dc cc frames out
      have hstep : evalStmts fuel [.incrementNode "x" []]
          ⟨("x", Value.num k) :: envR, store, ⟨ic, dc, cc, frames, false, false, out⟩⟩
          = .ok ⟨("x", Value.num (k + 1)) :: envR, store,
                 ⟨ic + 1, dc, cc, frames, false, false, out⟩⟩ := by
        simp [evalStmts, evalStmt, evalVarRead, evalVarWrite, envLookup, envInsert]
      rw [runLoopN.eq_def]
      simp only [checkExecution]
      simp only [hstep]
      rw [ih (k + 1) envR store (ic + 1) dc cc frames out]
      have h1 : k + 1 + (m : Int) = k + ((m : Nat) + 1 : Nat) := by push_cast; ring
      have h2 : ic + 1 + m = ic + (m + 1) := by omega
      rw [h1, h2]
      simp

/-- C6 (witness): repeat 5 over one increment of x, from x = 0: the loop
statement equals the 5-iteration runner, which yields x = 5 with the
increment counter at 5. -/
theorem c6_loop_count_once_iterates_witness :
    evalStmt 3 (.loopNode (.numberNode 5) [.incrementNode "x" []])
        ⟨[("x", Value.num 0)], [], ⟨0, 0, 0, [], false, false, []⟩⟩
      = runLoopN 3 5 [.incrementNode "x" []]
          ⟨[("x", Value.num 0)], [], ⟨0, 0, 0, [], false, false, []⟩⟩ ∧
    runLoopN 3 5 [.incrementNode "x" []]
        ⟨[("x", Value.num 0)], [], ⟨0, 0, 0, [], false, false, []⟩⟩
      = .ok ⟨[("x", Value.num 5)], [], ⟨5, 0, 0, [], false, false, []⟩⟩ :=
  ⟨c6_loop_count_once_iterates.1 3 (.numberNode 5) [.incrementNode "x" []]
      ⟨[("x", Value.num 0)], [], ⟨0, 0, 0, [], false, false, []⟩⟩ 5
      ⟨[("x", Value.num 0)], [], ⟨0, 0, 0, [], false, false, []⟩⟩ rfl (by decide),
   by simpa using c6_loop_count_once_iterates.2.2 3 5 0 [] [] 0 0 0 [] []⟩

/-- C7 (counterexample): a call that completes successfully yet changes
the call-frame stack depth.  g's body is a bare Break; f's body calls g
inside a loop.  The Break escapes g's call boundary without popping g's
frame, the loop in f catches it, f completes normally and pops one frame
-- the leaked one -- so the call f(0) yields null (a successful
completion) but leaves one frame on a stack that was empty before,
refuting the claim that the depth after any successfully completing call
equals the depth before. -/
theorem c7_counterexample :
    evalExpr 3 (.funcCallNode "f" [.numberNode 0])
        ⟨[("g", Value.func "g" ["z"] [.breakNode]),
          ("f", Value.func "f" ["w"] [.loopNode (.numberNode 3)
            [.assignmentNode "d" [] (.funcCallNode "g" [.numberNode 0])]])], [], {}⟩
      = .ok .null
        ⟨[("g", Value.func "g" ["z"] [.breakNode]),
          ("f", Value.func "f" ["w"] [.loopNode (.numberNode 3)
            [.assignmentNode "d" [] (.funcCallNode "g" [.numberNode 0])]])], [],
         { callFrames := [⟨"f", [Value.num 0]⟩] }⟩ ∧
    ([⟨"f", [Value.num 0]⟩] : List Frame) ≠ [] := by
  refine ⟨?_, by simp⟩
  simp [evalProgram, evalStmts, evalStmt, evalExpr, evalVarRead, evalVarWrite,
    evalIndexRead, evalCallBody, evalExprList, evalIfTail, runLoopN, runLoopInf,
    envLookup, envInsert, checkExecution, pushFrame, popFrame, rtPrint, bindParams,
    getCell, allocCell, setElem, pushElem, jsIsArray, jsStrictEq, jsCompare]

/-- C7 (amended): a call whose body signals return yields the payload, a
call whose body completes without returning yields Null, and in both
paths the pushed call frame is popped, so the stack depth after the call
equals the depth before it -- PROVIDED the body's own evaluation left the
frame stack exactly one pushed frame above the caller's (the proviso the
counterexample shows is necessary: a Break crossing a nested call
boundary inside the body leaks a frame). -/
theorem c7_call_frames_balanced :
    ∀ fuel name args st fname ps body vs stA,
      envLookup st.env name = some (.func fname ps body) →
      ps.length = args.length →
      evalExprList (fuel + 1) args st = .ok vs stA →
      stA.rt.callFrames = st.rt.callFrames →
      ((∀ st2, evalStmts fuel body
            ⟨bindParams stA.env ps vs, stA.store, pushFrame stA.rt name vs⟩ = .ok st2 →
          st2.rt.callFrames = Frame.mk name vs :: stA.rt.callFrames →
          evalExpr (fuel + 1) (.funcCallNode name args) st
            = .ok .null ⟨stA.env, st2.store, popFrame st2.rt⟩ ∧
          (popFrame st2.rt).callFrames = st.rt.callFrames) ∧
       (∀ v st2, evalStmts fuel body
            ⟨bindParams stA.env ps vs, stA.store, pushFrame stA.rt name vs⟩ = .ret v st2 →
          st2.rt.callFrames = Frame.mk name vs :: stA.rt.callFrames →
          evalExpr (fuel + 1) (.funcCallNode name args) st
            = .ok v ⟨stA.env, st2.store, popFrame st2.rt⟩ ∧
          (popFrame st2.rt).callFrames = st.rt.callFrames)) := by
  intro fuel name args st fname ps body vs stA h1 h2 h3 h4
  constructor
  · intro st2 hB hFr
    constructor
    · simp [evalExpr, h1, h2, evalCallBody, h3, hB]
    · simp [popFrame, hFr, h4]
  · intro v st2 hB hFr
    constructor
    · simp [evalExpr, h1, h2, evalCallBody, h3, hB]
    · simp [popFrame, hFr, h4]

/-- C7 (witness): the identity-style function f = 入力 z に対し (z が答え)
called as f(5): the return path yields 5 and restores the empty frame
stack. -/
theorem c7_call_frames_balanced_witness :
    evalExpr 3 (.funcCallNode "f" [.numberNode 5])
        ⟨[("f", Value.func "f" ["z"] [.returnNode (.variableNode "z" [])])], [], {}⟩
      = .ok (.num 5)
        ⟨[("f", Value.func "f" ["z"] [.returnNode (.variableNode "z" [])])], [],
         popFrame (pushFrame ({} : Rt) "f" [Value.num 5])⟩ ∧
    (popFrame (pushFrame ({} : Rt) "f" [Value.num 5])).callFrames = ([] : List Frame) :=
  (c7_call_frames_balanced 2 "f" [.numberNode 5]
      ⟨[("f", Value.func "f" ["z"] [.returnNode (.variableNode "z" [])])], [], {}⟩
      "f" ["z"] [.returnNode (.variableNode "z" [])] [Value.num 5]
      ⟨[("f", Value.func "f" ["z"] [.returnNode (.variableNode "z" [])])], [], {}⟩
      rfl rfl rfl rfl).2 (.num 5)
    ⟨bindParams [("f", Value.func "f" ["z"] [.returnNode (.variableNode "z" [])])]
        ["z"] [Value.num 5], [],
     pushFrame ({} : Rt) "f" [Value.num 5]⟩
    rfl rfl

/-- C10: assignment through an index chain never introduces a binding.
First conjunct: when the base name is unbound and the assigned expression
evaluates, the indexed assignment raises the unknown-variable error with
the environment bindings unchanged.  Second conjunct: an indexed
assignment never changes the environment bindings at all, whatever its
outcome -- only the store can change -- so only a bare assignment can
introduce a new name.  Third conjunct: a bare assignment binds (or
overwrites) the name. -/
theorem c10_indexed_assignment_no_new_name :
    (∀ fuel name i0 irest e st v st',
        evalExpr fuel e st = .ok v st' → envLookup st.env name = none →
        evalStmt fuel (.assignmentNode name (i0 :: irest) e) st
          = .err (.unknownVariable name) st' ∧ st'.env = st.env) ∧
    (∀ fuel name i0 irest e st env0,
        (evalStmt fuel (.assignmentNode name (i0 :: irest) e) st).envOf = some env0 →
        env0 = st.env) ∧
    (∀ fuel name e st v st',
        evalExpr fuel e st = .ok v st' →
        evalStmt fuel (.assignmentNode name [] e) st
          = .ok ⟨envInsert st'.env name v, st'.store, st'.rt⟩) := by
  refine ⟨?_, ?_, ?_⟩
  · intro fuel name i0 irest e st v st' hE hN
    have hEnv := evalExpr_ok_env hE
    refine ⟨?_, hEnv⟩
    simp [evalStmt, hE, evalVarWrite, hEnv, hN]
  · intro fuel name i0 irest e st env0 h
    cases hE : evalExpr fuel e st with
    | ok v st' =>
      have hEnv := evalExpr_ok_env hE
      have hred : evalStmt fuel (.assignmentNode name (i0 :: irest) e) st
          = evalVarWrite fuel name (i0 :: irest) v st' := by
        simp [evalStmt, hE]
      rw [hred] at h
      rw [evalVarWrite_indexed_env fuel name i0 irest v st' env0 h, hEnv]
    | brk st' =>
      have hEnv := evalExpr_brk_env hE
      simp [evalStmt, hE, SRes.envOf] at h
      simp_all
    | err er st' =>
      have hEnv := evalExpr_err_env hE
      simp [evalStmt, hE, SRes.envOf] at h
      simp_all
    | div => simp [evalStmt, hE, SRes.envOf] at h
  · intro fuel name e st v st' hE
    simp [evalStmt, hE, evalVarWrite]

/-- C10 (witness): assigning v[0] = 7 in the empty environment raises the
unknown-variable error and leaves the environment empty. -/
theorem c10_indexed_assignment_no_new_name_witness :
    evalStmt 3 (.assignmentNode "v" [.numberNode 0] (.numberNode 7)) ⟨[], [], {}⟩
      = .err (.unknownVariable "v") ⟨[], [], {}⟩ ∧
    (⟨[], [], {}⟩ : St).env = (⟨[], [], {}⟩ : St).env :=
  c10_indexed_assignment_no_new_name.1 3 "v" (.numberNode 0) [] (.numberNode 7)
    ⟨[], [], {}⟩ (.num 7) ⟨[], [], {}⟩ rfl rfl


end Nanako
